import Mathlib

/-!
Verification development for the job-scraper pipeline.

Python strings are modelled as `List Char`; machine-level byte values are
`Nat` taken modulo 256, and 32-bit words are `Nat` taken modulo 2^32.
Each definition below is a shallow embedding of the correspondingly named
function of the repository (`app/utils/hash.py`, `app/services/llm_service.py`,
`app/services/matching_service.py`, `app/services/notification_service.py`,
`app/workers/scrape_worker.py`).
-/

/-- Shorthand: a Python string literal as a `List Char`. -/
def str (s : String) : List Char := s.toList

/-! ### Python string primitives -/

/-- The whitespace characters stripped by Python's `str.strip()`. -/
def isPySpace (c : Char) : Bool :=
  c == ' ' || c == '\t' || c == '\n' || c == '\r' || c == '\x0b' || c == '\x0c'

/-- Python `str.strip()` (no argument): drop whitespace from both ends. -/
def pyStrip (s : List Char) : List Char :=
  ((s.dropWhile isPySpace).reverse.dropWhile isPySpace).reverse

/-- Python `str.lower()` on one character (ASCII range, as the repository's
inputs are ASCII identifiers/URLs/titles). -/
def pyLowerChar (c : Char) : Char :=
  if 65 ≤ c.toNat ∧ c.toNat ≤ 90 then Char.ofNat (c.toNat + 32) else c

/-- Python `str.upper()` on one character (ASCII range). -/
def pyUpperChar (c : Char) : Char :=
  if 97 ≤ c.toNat ∧ c.toNat ≤ 122 then Char.ofNat (c.toNat - 32) else c

/-- Python `str.lower()`. -/
def pyLower (s : List Char) : List Char := s.map pyLowerChar

/-- Python `str.upper()`. -/
def pyUpper (s : List Char) : List Char := s.map pyUpperChar

/-- Python's substring test `needle in hay`. -/
def isSubstring (needle hay : List Char) : Bool :=
  match hay with
  | [] => needle.isEmpty
  | _ :: t => needle.isPrefixOf hay || isSubstring needle t

/-- Python `str.split(sep)` for a one-character separator: always returns a
non-empty list and keeps empty pieces (`"".split(",") == [""]`). -/
def pySplit (sep : Char) : List Char → List (List Char)
  | [] => [[]]
  | c :: rest =>
    if c == sep then [] :: pySplit sep rest
    else
      match pySplit sep rest with
      | g :: gs => (c :: g) :: gs
      | [] => [[c]]

/-- UTF-8 encoding of one character (Python `str.encode()`), as byte values. -/
def utf8Encode (c : Char) : List Nat :=
  let n := c.toNat
  if n < 128 then [n]
  else if n < 2048 then
    [192 ||| (n >>> 6), 128 ||| (n &&& 63)]
  else if n < 65536 then
    [224 ||| (n >>> 12), 128 ||| ((n >>> 6) &&& 63), 128 ||| (n &&& 63)]
  else
    [240 ||| (n >>> 18), 128 ||| ((n >>> 12) &&& 63),
     128 ||| ((n >>> 6) &&& 63), 128 ||| (n &&& 63)]

/-- Python `str.encode()`: UTF-8 bytes of a string. -/
def strBytes (s : List Char) : List Nat := (s.map utf8Encode).flatten

/-! ### SHA-256 (the digest used by `hashlib.sha256` in `app/utils/hash.py`) -/

def two32 : Nat := 4294967296

/-- Right rotation of a 32-bit word. -/
def rotr (n x : Nat) : Nat := ((x >>> n) ||| (x <<< (32 - n))) % two32

def shaCh (x y z : Nat) : Nat := (x &&& y) ^^^ ((x ^^^ 4294967295) &&& z)

def shaMaj (x y z : Nat) : Nat := (x &&& y) ^^^ (x &&& z) ^^^ (y &&& z)

def bigSigma0 (x : Nat) : Nat := rotr 2 x ^^^ rotr 13 x ^^^ rotr 22 x

def bigSigma1 (x : Nat) : Nat := rotr 6 x ^^^ rotr 11 x ^^^ rotr 25 x

def smallSigma0 (x : Nat) : Nat := rotr 7 x ^^^ rotr 18 x ^^^ (x >>> 3)

def smallSigma1 (x : Nat) : Nat := rotr 17 x ^^^ rotr 19 x ^^^ (x >>> 10)

/-- The 64 SHA-256 round constants (decimal). -/
def sha256K : List Nat :=
  [1116352408, 1899447441, 3049323471, 3921009573, 961987163,
   1508970993, 2453635748, 2870763221, 3624381080, 310598401,
   607225278, 1426881987, 1925078388, 2162078206, 2614888103,
   3248222580, 3835390401, 4022224774, 264347078, 604807628,
   770255983, 1249150122, 1555081692, 1996064986, 2554220882,
   2821834349, 2952996808, 3210313671, 3336571891, 3584528711,
   113926993, 338241895, 666307205, 773529912, 1294757372,
   1396182291, 1695183700, 1986661051, 2177026350, 2456956037,
   2730485921, 2820302411, 3259730800, 3345764771, 3516065817,
   3600352804, 4094571909, 275423344, 430227734, 506948616,
   659060556, 883997877, 958139571, 1322822218, 1537002063,
   1747873779, 1955562222, 2024104815, 2227730452, 2361852424,
   2428436474, 2756734187, 3204031479, 3329325298]

/-- Running state of the eight SHA-256 working variables. -/
structure Hash8 where
  a : Nat
  b : Nat
  c : Nat
  d : Nat
  e : Nat
  f : Nat
  g : Nat
  h : Nat
deriving Repr, DecidableEq

def sha256InitH : Hash8 :=
  ⟨1779033703, 3144134277, 1013904242, 2773480762,
   1359893119, 2600822924, 528734635, 1541459225⟩

/-- Big-endian packing of bytes into 32-bit words. -/
def bytesToWords : List Nat → List Nat
  | b0 :: b1 :: b2 :: b3 :: rest =>
    ((((b0 <<< 8) ||| b1) <<< 8 ||| b2) <<< 8 ||| b3) :: bytesToWords rest
  | _ => []

/-- The next word of the SHA-256 message schedule. -/
def nextW (w : List Nat) : Nat :=
  let n := w.length
  (smallSigma1 (w.getD (n - 2) 0) + w.getD (n - 7) 0 +
   smallSigma0 (w.getD (n - 15) 0) + w.getD (n - 16) 0) % two32

/-- Extend the 16-word schedule by `k` further words. -/
def expandW (w : List Nat) : Nat → List Nat
  | 0 => w
  | k + 1 => expandW (w ++ [nextW w]) k

/-- One SHA-256 round for constant `k` and schedule word `wt`. -/
def sha256Round (st : Hash8) (kw : Nat × Nat) : Hash8 :=
  let t1 := (st.h + bigSigma1 st.e + shaCh st.e st.f st.g + kw.1 + kw.2) % two32
  let t2 := (bigSigma0 st.a + shaMaj st.a st.b st.c) % two32
  ⟨(t1 + t2) % two32, st.a, st.b, st.c, (st.d + t1) % two32, st.e, st.f, st.g⟩

/-- Compress one 64-byte block into the running hash state. -/
def compressBlock (H : Hash8) (block : List Nat) : Hash8 :=
  let w := expandW (bytesToWords block) 48
  let st := (sha256K.zip w).foldl sha256Round H
  ⟨(H.a + st.a) % two32, (H.b + st.b) % two32, (H.c + st.c) % two32,
   (H.d + st.d) % two32, (H.e + st.e) % two32, (H.f + st.f) % two32,
   (H.g + st.g) % two32, (H.h + st.h) % two32⟩

/-- Split a padded message into its `k` 64-byte blocks (the padded SHA-256
message always has length exactly `64 * k`). -/
def toBlocks : Nat → List Nat → List (List Nat)
  | 0, _ => []
  | k + 1, l => l.take 64 :: toBlocks k (l.drop 64)

/-- SHA-256 of a byte sequence, as the eight 32-bit words of the digest. -/
def sha256 (msg : List Nat) : List Nat :=
  let bitLen := msg.length * 8
  let padLen := (119 - msg.length % 64) % 64
  let lenBytes := (List.range 8).map (fun i => (bitLen >>> (56 - 8 * i)) % 256)
  let padded := msg ++ 128 :: List.replicate padLen 0 ++ lenBytes
  let fin := (toBlocks (padded.length / 64) padded).foldl compressBlock sha256InitH
  [fin.a, fin.b, fin.c, fin.d, fin.e, fin.f, fin.g, fin.h]

def hexChars : List Char := str "0123456789abcdef"

/-- Lower-case hexadecimal rendering of one 32-bit word (8 digits). -/
def wordToHex (w : Nat) : List Char :=
  (List.range 8).map (fun i => hexChars.getD ((w >>> (28 - 4 * i)) % 16) '0')

/-- `hashlib.sha256(...).hexdigest()`: 64 lower-case hex characters. -/
def sha256Hex (msg : List Nat) : List Char :=
  ((sha256 msg).map wordToHex).flatten

/-- Embedding of `generate_job_external_id` (`app/utils/hash.py`):
`f"{career_page_id}:{job_url}:{title}".lower().strip()` fed to SHA-256. -/
def generate_job_external_id (career_page_id job_url title : List Char) : List Char :=
  let unique_string :=
    pyStrip (pyLower (career_page_id ++ str ":" ++ job_url ++ str ":" ++ title))
  sha256Hex (strBytes unique_string)

-- Sanity checks of the SHA-256 embedding against the published test vectors.
example : sha256Hex (strBytes (str "abc")) =
    str "ba7816bf8f01cfea414140de5dae2223b00361a396177a9cb410ff61f20015ad" := by
  decide

example : sha256Hex (strBytes (str "")) =
    str "e3b0c44298fc1c149afbf4c8996fb92427ae41e4649b934ca495991b7852b855" := by
  decide

/-! ### Data model (ORM rows of `app/models`, with timestamps as `Nat`) -/

/-- The raw content-unit dictionary built by
`ScraperService._extract_jobs_from_scrape` and consumed by `LLMService`. -/
structure RawJob where
  url : List Char
  career_page_id : List Char
  company_name : List Char
  raw_content : List Char
deriving Repr, DecidableEq

/-- The normalized job dictionary produced by `LLMService._parse_llm_response`. -/
structure NormalizedJob where
  title : List Char
  location : Option (List Char)
  job_type : Option (List Char)
  experience_level : Option (List Char)
  description : Option (List Char)
  requirements : Option (List Char)
  url : List Char
  career_page_id : List Char
  company_name : List Char
  raw_data : RawJob
deriving Repr, DecidableEq

/-! ### JSON values and `json.loads` (used by `LLMService._parse_llm_response`) -/

/-- A parsed JSON value.  Strings are `List Char`; numbers are restricted to
integers (no claim depends on fractional values). -/
inductive JValue where
  | jnull
  | jbool (b : Bool)
  | jnum (n : Int)
  | jstr (s : List Char)
  | jarr (elems : List JValue)
  | jobj (fields : List (List Char × JValue))
deriving Repr

/-- JSON insignificant whitespace. -/
def jsonWs (c : Char) : Bool := c == ' ' || c == '\t' || c == '\n' || c == '\r'

/-- Numeric value of one hexadecimal digit character. -/
def hexDigitVal (c : Char) : Option Nat :=
  let n := c.toNat
  if 48 ≤ n ∧ n ≤ 57 then some (n - 48)
  else if 97 ≤ n ∧ n ≤ 102 then some (n - 87)
  else if 65 ≤ n ∧ n ≤ 70 then some (n - 55)
  else none

/-- Single-character JSON string escapes. -/
def escChar? : Char → Option Char
  | '"' => some '"'
  | '\\' => some '\\'
  | '/' => some '/'
  | 'b' => some (Char.ofNat 8)
  | 'f' => some (Char.ofNat 12)
  | 'n' => some '\n'
  | 'r' => some '\r'
  | 't' => some '\t'
  | _ => none

/-- Parse the body of a JSON string literal (after the opening quote),
returning the decoded characters and the remaining input.  `\uXXXX` escapes
are decoded without surrogate-pair combination (irrelevant to the claims). -/
def parseStringBody : List Char → Option (List Char × List Char)
  | [] => none
  | c :: rest =>
    if c == '"' then some ([], rest)
    else if c == '\\' then
      match rest with
      | [] => none
      | e :: rest2 =>
        if e == 'u' then
          match rest2 with
          | h1 :: h2 :: h3 :: h4 :: rest3 =>
            match hexDigitVal h1, hexDigitVal h2, hexDigitVal h3, hexDigitVal h4 with
            | some a, some b, some c3, some d =>
              match parseStringBody rest3 with
              | some (s, r) => some (Char.ofNat (((a * 16 + b) * 16 + c3) * 16 + d) :: s, r)
              | none => none
            | _, _, _, _ => none
          | _ => none
        else
          match escChar? e with
          | some ec =>
            match parseStringBody rest2 with
            | some (s, r) => some (ec :: s, r)
            | none => none
          | none => none
    else
      match parseStringBody rest with
      | some (s, r) => some (c :: s, r)
      | none => none

/-- Parse a JSON number.  Integers only: a fractional or exponent part makes
the parse fail (no claim involves non-integer numbers). -/
def parseNumber (l : List Char) : Option (JValue × List Char) :=
  let neg := match l with
    | c :: _ => c == '-'
    | [] => false
  let l1 := if neg then l.drop 1 else l
  let ds := l1.takeWhile (·.isDigit)
  if ds.isEmpty then none
  else
    let rest := l1.drop ds.length
    match rest with
    | c :: _ =>
      if c == '.' || c == 'e' || c == 'E' then none
      else
        let n : Int := Int.ofNat (ds.foldl (fun a c => a * 10 + (c.toNat - 48)) 0)
        some (.jnum (if neg then -n else n), rest)
    | [] =>
      let n : Int := Int.ofNat (ds.foldl (fun a c => a * 10 + (c.toNat - 48)) 0)
      some (.jnum (if neg then -n else n), [])

/-- What the recursive JSON parser is currently parsing. -/
inductive PMode where
  | value
  | arrItems
  | objFields

/-- Result of one `parseAux` call. -/
inductive PRes where
  | val (v : JValue)
  | items (vs : List JValue)
  | fields (fs : List (List Char × JValue))

/-- Fuelled recursive-descent JSON parser (a single structurally recursive
function so that every call is kernel-evaluable). -/
def parseAux : Nat → PMode → List Char → Option (PRes × List Char)
  | 0, _, _ => none
  | fuel + 1, .value, l =>
    match l.dropWhile jsonWs with
    | [] => none
    | c :: rest =>
      if c == '\x7b' then
        match rest.dropWhile jsonWs with
        | '\x7d' :: r2 => some (.val (.jobj []), r2)
        | _ =>
          match parseAux fuel .objFields rest with
          | some (.fields fs, r) => some (.val (.jobj fs), r)
          | _ => none
      else if c == '[' then
        match rest.dropWhile jsonWs with
        | ']' :: r2 => some (.val (.jarr []), r2)
        | _ =>
          match parseAux fuel .arrItems rest with
          | some (.items vs, r) => some (.val (.jarr vs), r)
          | _ => none
      else if c == '"' then
        match parseStringBody rest with
        | some (s, r) => some (.val (.jstr s), r)
        | none => none
      else if c == 't' then
        if (str "rue").isPrefixOf rest then some (.val (.jbool true), rest.drop 3) else none
      else if c == 'f' then
        if (str "alse").isPrefixOf rest then some (.val (.jbool false), rest.drop 4) else none
      else if c == 'n' then
        if (str "ull").isPrefixOf rest then some (.val .jnull, rest.drop 3) else none
      else if c == '-' || c.isDigit then
        match parseNumber (c :: rest) with
        | some (v, r) => some (.val v, r)
        | none => none
      else none
  | fuel + 1, .arrItems, l =>
    match parseAux fuel .value l with
    | some (.val v, r) =>
      match r.dropWhile jsonWs with
      | ',' :: r2 =>
        match parseAux fuel .arrItems r2 with
        | some (.items vs, r3) => some (.items (v :: vs), r3)
        | _ => none
      | ']' :: r2 => some (.items [v], r2)
      | _ => none
    | _ => none
  | fuel + 1, .objFields, l =>
    match l.dropWhile jsonWs with
    | '"' :: r =>
      match parseStringBody r with
      | some (k, r1) =>
        match r1.dropWhile jsonWs with
        | ':' :: r3 =>
          match parseAux fuel .value r3 with
          | some (.val v, r4) =>
            match r4.dropWhile jsonWs with
            | ',' :: r6 =>
              match parseAux fuel .objFields r6 with
              | some (.fields fs, r7) => some (.fields ((k, v) :: fs), r7)
              | _ => none
            | '\x7d' :: r6 => some (.fields [(k, v)], r6)
            | _ => none
          | _ => none
        | _ => none
      | none => none
    | _ => none

/-- `json.loads`: the whole input must be one JSON value (with surrounding
whitespace allowed); anything else fails. -/
def jsonParse (l : List Char) : Option JValue :=
  match parseAux (2 * l.length + 2) .value l with
  | some (.val v, rest) => if (rest.dropWhile jsonWs).isEmpty then some v else none
  | _ => none

/-! ### `LLMService._parse_llm_response` and `normalize_job_data` -/

/-- Python dict lookup on a parsed JSON object (`dict.get(k)` without default):
`none` iff the key is absent.  Duplicate keys keep the last occurrence, as in
`json.loads`. -/
def dictGet? (fields : List (List Char × JValue)) (k : List Char) : Option JValue :=
  match fields.reverse.find? (fun kv => kv.1 == k) with
  | some kv => some kv.2
  | none => none

/-- `dict.get(k, default)`. -/
def jgetD (fields : List (List Char × JValue)) (k : List Char) (d : JValue) : JValue :=
  (dictGet? fields k).getD d

/-- Python truthiness of a JSON value. -/
def jtruthy : JValue → Bool
  | .jnull => false
  | .jbool b => b
  | .jnum n => n != 0
  | .jstr s => !s.isEmpty
  | .jarr vs => !vs.isEmpty
  | .jobj fs => !fs.isEmpty

/-- `.strip()` applied to a value fetched from the parsed JSON: succeeds only
on strings; on any other value (including an explicit `null`) Python raises
`AttributeError`, modelled as `Except.error`. -/
def pyStripVal : JValue → Except Unit (List Char)
  | .jstr s => .ok (pyStrip s)
  | _ => .error ()

/-- Python's `s or None` idiom on a stripped string. -/
def orNone (s : List Char) : Option (List Char) :=
  if s.isEmpty then none else some s

/-- Processing of one parsed array element inside the loop of
`_parse_llm_response`: skip it (`ok none`) when `job.get("title")` is falsy,
raise (`error`) when any consulted field carries a non-string value, and
otherwise build the normalized job dictionary. -/
def processJob (raw_job : RawJob) (job : JValue) : Except Unit (Option NormalizedJob) :=
  match job with
  | .jobj fields =>
    if jtruthy (jgetD fields (str "title") .jnull) then
      match pyStripVal (jgetD fields (str "title") (.jstr [])) with
      | .error e => .error e
      | .ok title =>
      match pyStripVal (jgetD fields (str "location") (.jstr [])) with
      | .error e => .error e
      | .ok location =>
      match pyStripVal (jgetD fields (str "job_type") (.jstr [])) with
      | .error e => .error e
      | .ok job_type =>
      match pyStripVal (jgetD fields (str "experience_level") (.jstr [])) with
      | .error e => .error e
      | .ok experience_level =>
      match pyStripVal (jgetD fields (str "description") (.jstr [])) with
      | .error e => .error e
      | .ok description =>
      match pyStripVal (jgetD fields (str "requirements") (.jstr [])) with
      | .error e => .error e
      | .ok requirements =>
      match pyStripVal (jgetD fields (str "url") (.jstr [])) with
      | .error e => .error e
      | .ok url =>
        .ok (some
          { title := title
            location := orNone location
            job_type := orNone job_type
            experience_level := orNone experience_level
            description := orNone description
            requirements := orNone requirements
            url := if url.isEmpty then raw_job.url else url
            career_page_id := raw_job.career_page_id
            company_name := raw_job.company_name
            raw_data := raw_job })
    else .ok none
  | _ => .error ()

/-- The element loop of `_parse_llm_response`: any raised exception aborts the
whole loop. -/
def processJobs (raw_job : RawJob) : List JValue → Except Unit (List NormalizedJob)
  | [] => .ok []
  | j :: rest =>
    match processJob raw_job j with
    | .error e => .error e
    | .ok none => processJobs raw_job rest
    | .ok (some nj) =>
      match processJobs raw_job rest with
      | .error e => .error e
      | .ok njs => .ok (nj :: njs)

/-- `llm_output[start_idx:end_idx]` where `start_idx = find("[")` and
`end_idx = rfind("]") + 1`; `none` iff either bracket is absent. -/
def bracketSpan (l : List Char) : Option (List Char) :=
  if ('[' ∈ l) ∧ (']' ∈ l) then
    some (((l.dropWhile (· != '[')).reverse.dropWhile (· != ']')).reverse)
  else none

/-- Embedding of `LLMService._parse_llm_response`. -/
def parse_llm_response (llm_output : List Char) (raw_job : RawJob) : List NormalizedJob :=
  let out := pyStrip llm_output
  match bracketSpan out with
  | none => []
  | some json_str =>
    match jsonParse json_str with
    | none => []
    | some (.jarr jobs_data) =>
      match processJobs raw_job jobs_data with
      | .ok njs => njs
      | .error _ => []
    | some _ => []

/-- Embedding of `LLMService.normalize_job_data`: the call to the external
model is an oracle outcome (`Except`), and any communication error yields
the empty list. -/
def normalize_job_data (raw_job : RawJob)
    (llmResponse : Except Unit (List Char)) : List NormalizedJob :=
  if raw_job.raw_content.isEmpty then []
  else
    match llmResponse with
    | .ok llm_output => parse_llm_response llm_output raw_job
    | .error _ => []

def sampleRaw : RawJob :=
  { url := str "https://a.example/careers"
    career_page_id := str "cp-1"
    company_name := str "Acme"
    raw_content := str "body" }

-- Temporary sanity checks of the extractor embedding (removed later).
example :
    parse_llm_response (str "Here you go: [\x7b\"title\":\"X\"\x7d] thanks") sampleRaw =
      [{ title := str "X", location := none, job_type := none,
         experience_level := none, description := none, requirements := none,
         url := sampleRaw.url, career_page_id := sampleRaw.career_page_id,
         company_name := sampleRaw.company_name, raw_data := sampleRaw }] := by
  decide

example : parse_llm_response (str "no jobs") sampleRaw = [] := by decide

example : parse_llm_response (str "[]") sampleRaw = [] := by decide

example : parse_llm_response (str "[\x7b\"location\":\"NY\"\x7d]") sampleRaw = [] := by decide

example :
    parse_llm_response
      (str "[\x7b\"title\":\"A\"\x7d, \x7b\"title\":\"B\",\"location\":null\x7d]")
      sampleRaw = [] := by decide

/-! ### Matcher (`app/services/matching_service.py`) -/

/-- A persisted `JobPosting` row; timestamps are abstract `Nat` instants and
the primary key is a `Nat`. -/
structure JobPosting where
  id : Nat
  career_page_id : List Char
  external_id : List Char
  title : List Char
  location : Option (List Char)
  job_type : Option (List Char)
  experience_level : Option (List Char)
  description : Option (List Char)
  requirements : Option (List Char)
  url : List Char
  raw_data : RawJob
  normalized_at : Nat
  first_seen_at : Nat
  last_seen_at : Nat
  is_active : Bool
deriving Repr, DecidableEq

/-- The user `preferences` JSON object.  A missing key and a key mapped to an
empty list behave identically in `check_user_match` (both are falsy), so each
criterion is one list. -/
structure Preferences where
  locations : List (List Char)
  job_types : List (List Char)
  experience_levels : List (List Char)
  company_ids : List (List Char)
deriving Repr, DecidableEq

def emptyPrefs : Preferences := ⟨[], [], [], []⟩

/-- A `User` row. -/
structure User where
  id : Nat
  email : List Char
  discord_webhook_url : Option (List Char)
  preferences : Option Preferences
  notification_channels : Option (List (List Char))
  is_active : Bool
deriving Repr, DecidableEq

/-- Python truthiness of an optional string column (`None` and `""` are both
falsy). -/
def optFalsy (o : Option (List Char)) : Bool :=
  match o with
  | none => true
  | some s => s.isEmpty

/-- Embedding of `MatchingService._location_matches`: lower-case and strip
both strings, then exact equality, then the mutual "remote" test, then
mutual substring containment. -/
def location_matches (job_location preferred_location : List Char) : Bool :=
  let jl := pyStrip (pyLower job_location)
  let pl := pyStrip (pyLower preferred_location)
  if jl == pl then true
  else if isSubstring (str "remote") pl && isSubstring (str "remote") jl then true
  else if isSubstring pl jl || isSubstring jl pl then true
  else false

/-- Embedding of `MatchingService.check_user_match`.  `user.preferences or {}`
followed by `if not preferences: return True` is modelled by comparison with
the all-empty preference structure (a preferences dict whose lists are all
empty passes every later check, so the two readings agree). -/
def check_user_match (user : User) (job : JobPosting) : Bool :=
  let preferences := user.preferences.getD emptyPrefs
  if preferences == emptyPrefs then true
  else
    let preferred_locations := preferences.locations
    let locationOk :=
      if !preferred_locations.isEmpty then
        if optFalsy job.location then false
        else preferred_locations.any fun pref =>
          location_matches (job.location.getD []) pref
      else true
    if !locationOk then false
    else
      let preferred_job_types := preferences.job_types
      let typeOk :=
        if !preferred_job_types.isEmpty then
          if optFalsy job.job_type then false
          else preferred_job_types.contains (job.job_type.getD [])
        else true
      if !typeOk then false
      else
        let preferred_experience_levels := preferences.experience_levels
        let expOk :=
          if !preferred_experience_levels.isEmpty then
            if optFalsy job.experience_level then false
            else preferred_experience_levels.contains (job.experience_level.getD [])
          else true
        if !expOk then false
        else
          let preferred_company_ids := preferences.company_ids
          if !preferred_company_ids.isEmpty then
            preferred_company_ids.contains job.career_page_id
          else true

/-! ### Deduplication gate (`ScrapeWorker.save_new_job`) -/

/-- In-place refresh of the first posting bearing the duplicate key:
`existing_job.last_seen_at = now; existing_job.is_active = True`. -/
def updateExistingJob : List JobPosting → List Char → Nat → List JobPosting
  | [], _, _ => []
  | j :: rest, eid, now =>
    if j.external_id == eid then
      { j with last_seen_at := now, is_active := true } :: rest
    else j :: updateExistingJob rest eid now

/-- Embedding of `ScrapeWorker.save_new_job`.  The database is the ordered
list of persisted postings; `now` is the call's clock reading and `newId` the
storage-assigned primary key.  Returns the pair (what the function returns,
database afterwards). -/
def save_new_job (normalized_job : NormalizedJob) (career_page_id : List Char)
    (now newId : Nat) (db : List JobPosting) : Option JobPosting × List JobPosting :=
  let external_id :=
    generate_job_external_id career_page_id normalized_job.url normalized_job.title
  match db.find? (fun j => j.external_id == external_id) with
  | some _ => (none, updateExistingJob db external_id now)
  | none =>
    let new_job : JobPosting :=
      { id := newId
        career_page_id := career_page_id
        external_id := external_id
        title := normalized_job.title
        location := normalized_job.location
        job_type := normalized_job.job_type
        experience_level := normalized_job.experience_level
        description := normalized_job.description
        requirements := normalized_job.requirements
        url := normalized_job.url
        raw_data := normalized_job.raw_data
        normalized_at := now
        first_seen_at := now
        last_seen_at := now
        is_active := true }
    (some new_job, db ++ [new_job])

/-! ### Dispatcher (`app/services/notification_service.py`) -/

inductive NotificationChannel where
  | email
  | discord
  | dashboard
deriving Repr, DecidableEq

inductive NotificationStatus where
  | sent
  | failed
deriving Repr, DecidableEq

/-- An appended `Notification` audit row. -/
structure Notification where
  user_id : Nat
  job_posting_id : Nat
  channel : NotificationChannel
  status : NotificationStatus
  sent_at : Option Nat
  error_message : Option (List Char)
deriving Repr, DecidableEq

/-- A `NotificationQueue` row; `channels` is the comma-separated string. -/
structure QueueEntry where
  id : Nat
  user_id : Nat
  job_posting_id : Nat
  channels : List Char
deriving Repr, DecidableEq

/-- Ambient state for one queue drain: the user and posting tables plus the
outcome of each external transport (`Except` carries the error text
`str(e)`), and the clock. -/
structure NotifyEnv where
  users : List User
  jobs : List JobPosting
  emailSend : User → JobPosting → Except (List Char) Unit
  discordSend : User → JobPosting → Except (List Char) Unit
  now : Nat

/-- Embedding of `NotificationService.send_email_notification`: a transport
failure is caught and recorded, never re-raised. -/
def send_email_notification (env : NotifyEnv) (user : User) (job : JobPosting)
    (notifications : List Notification) : List Notification :=
  match env.emailSend user job with
  | .ok _ =>
    notifications ++ [⟨user.id, job.id, .email, .sent, some env.now, none⟩]
  | .error e =>
    notifications ++ [⟨user.id, job.id, .email, .failed, none, some e⟩]

/-- Embedding of `NotificationService.send_discord_notification`: silently
returns when the user has no webhook URL; otherwise records the outcome. -/
def send_discord_notification (env : NotifyEnv) (user : User) (job : JobPosting)
    (notifications : List Notification) : List Notification :=
  if optFalsy user.discord_webhook_url then notifications
  else
    match env.discordSend user job with
    | .ok _ =>
      notifications ++ [⟨user.id, job.id, .discord, .sent, some env.now, none⟩]
    | .error e =>
      notifications ++ [⟨user.id, job.id, .discord, .failed, none, some e⟩]

/-- Embedding of `NotificationService.send_dashboard_notification`: the
record itself is the notification. -/
def send_dashboard_notification (env : NotifyEnv) (user : User) (job : JobPosting)
    (notifications : List Notification) : List Notification :=
  notifications ++ [⟨user.id, job.id, .dashboard, .sent, some env.now, none⟩]

/-- The per-channel `if/elif` chain of `process_notification_queue`; `channel`
is already stripped.  An unrecognized channel name falls through with no
effect. -/
def dispatchChannel (env : NotifyEnv) (user : User) (job : JobPosting)
    (channel : List Char) (notifications : List Notification) : List Notification :=
  if channel == str "email" then send_email_notification env user job notifications
  else if channel == str "discord" then send_discord_notification env user job notifications
  else if channel == str "dashboard" then send_dashboard_notification env user job notifications
  else notifications

/-- Body of the per-entry loop of `process_notification_queue`: resolve the
subscriber and posting; if either is gone the entry contributes nothing;
otherwise attempt every channel of the entry in order. -/
def processQueueEntry (env : NotifyEnv) (entry : QueueEntry)
    (notifications : List Notification) : List Notification :=
  match env.users.find? (fun u => u.id == entry.user_id),
        env.jobs.find? (fun j => j.id == entry.job_posting_id) with
  | some user, some job =>
    (pySplit ',' entry.channels).foldl
      (fun ns ch => dispatchChannel env user job (pyStrip ch) ns) notifications
  | _, _ => notifications

/-- Embedding of `NotificationService.process_notification_queue`: drains the
given queue entries in order.  Every entry is deleted after it is handled
(both the stale path and the normal path call `db.delete(entry)`), so the
returned queue is what remains undeleted — always empty. -/
def process_notification_queue (env : NotifyEnv) :
    List QueueEntry → List Notification → List QueueEntry × List Notification
  | [], notifications => ([], notifications)
  | entry :: rest, notifications =>
    process_notification_queue env rest (processQueueEntry env entry notifications)

/-! ### Theorems -/

theorem isSubstring_iff (n h : List Char) : isSubstring n h = true ↔ n <:+: h := by
  induction h with
  | nil => simp [isSubstring, List.isEmpty_iff]
  | cons a t ih => simp [isSubstring, List.infix_cons_iff, ih]

/-- The spec's reading of `_location_matches`: on the normalized strings, a
plain disjunction of exact equality, the mutual "remote" test, and mutual
substring containment ("at least one of the following holds"). -/
def locationMatchesSpec (job_location preferred_location : List Char) : Prop :=
  pyStrip (pyLower job_location) = pyStrip (pyLower preferred_location) ∨
  (str "remote" <:+: pyStrip (pyLower preferred_location) ∧
   str "remote" <:+: pyStrip (pyLower job_location)) ∨
  pyStrip (pyLower preferred_location) <:+: pyStrip (pyLower job_location) ∨
  pyStrip (pyLower job_location) <:+: pyStrip (pyLower preferred_location)

/-- C4: `locationMatches(posted, preferred)` is computed case-insensitively on
the trimmed strings and returns true exactly when at least one of these
holds: exact equality, both containing "remote", or either being a substring
of the other; otherwise false. -/
theorem location_matches_correct (a b : List Char) :
    location_matches a b = true ↔ locationMatchesSpec a b := by
  simp only [location_matches, locationMatchesSpec]
  split_ifs with h1 h2 h3 <;>
    simp_all [isSubstring_iff, Bool.and_eq_true, Bool.or_eq_true]

def contractPrefs : Preferences := { emptyPrefs with job_types := [str "Contract"] }

def contractUser : User :=
  ⟨1, str "u@example.com", none, some contractPrefs, none, true⟩

def fulltimeJob : JobPosting :=
  ⟨1, str "cp-1", str "eid", str "Engineer", none, some (str "Full-time"), none,
   none, none, str "https://a.example/j", sampleRaw, 0, 0, 0, true⟩

/-- C3: an empty preference filter matches every posting; every constrained
dimension fails closed on a null posting value; and the job-type check is
verbatim membership, so `\x7btypes:["Contract"]\x7d` rejects
`job_type="Full-time"`. -/
theorem check_user_match_empty_and_null_dims :
    (∀ user job, user.preferences.getD emptyPrefs = emptyPrefs →
        check_user_match user job = true) ∧
    (∀ user job p, user.preferences = some p → p.locations ≠ [] →
        job.location = none → check_user_match user job = false) ∧
    (∀ user job p, user.preferences = some p → p.job_types ≠ [] →
        job.job_type = none → check_user_match user job = false) ∧
    (∀ user job p, user.preferences = some p → p.experience_levels ≠ [] →
        job.experience_level = none → check_user_match user job = false) ∧
    check_user_match contractUser fulltimeJob = false := by
  refine ⟨?_, ?_, ?_, ?_, by decide⟩
  · intro user job hp
    simp [check_user_match, hp]
  · intro user job p hp hl hloc
    have hne : (p == emptyPrefs) = false := by
      simp only [beq_eq_false_iff_ne, ne_eq]
      intro h
      rw [h] at hl
      exact hl rfl
    have hb : p.locations.isEmpty = false := by
      simp only [List.isEmpty_eq_false, ne_eq]
      exact hl
    simp only [check_user_match, hp, Option.getD_some, hloc, hne, hb]
    simp [optFalsy]
  · intro user job p hp ht hjt
    have hne : (p == emptyPrefs) = false := by
      simp only [beq_eq_false_iff_ne, ne_eq]
      intro h
      rw [h] at ht
      exact ht rfl
    have hb : p.job_types.isEmpty = false := by
      simp only [List.isEmpty_eq_false, ne_eq]
      exact ht
    simp only [check_user_match, hp, Option.getD_some, hjt, hne, hb]
    simp [optFalsy]
  · intro user job p hp he hel
    have hne : (p == emptyPrefs) = false := by
      simp only [beq_eq_false_iff_ne, ne_eq]
      intro h
      rw [h] at he
      exact he rfl
    have hb : p.experience_levels.isEmpty = false := by
      simp only [List.isEmpty_eq_false, ne_eq]
      exact he
    simp only [check_user_match, hp, Option.getD_some, hel, hne, hb]
    simp [optFalsy]

def remotePrefs : Preferences := { emptyPrefs with locations := [str "Remote"] }

def remoteUser : User :=
  ⟨2, str "r@example.com", none, some remotePrefs, none, true⟩

def nullLocationJob : JobPosting :=
  ⟨2, str "cp-1", str "eid2", str "Engineer", none, none, none, none, none,
   str "https://a.example/j2", sampleRaw, 0, 0, 0, true⟩

/-- Witness for C3: the empty filter accepts a concrete posting; the filter
`\x7blocations:["Remote"]\x7d` rejects a posting with a null location. -/
theorem check_user_match_empty_and_null_dims_witness :
    check_user_match ⟨3, str "e@example.com", none, none, none, true⟩ fulltimeJob = true ∧
    check_user_match remoteUser nullLocationJob = false := by
  constructor
  · exact check_user_match_empty_and_null_dims.1 _ _ (by decide)
  · exact check_user_match_empty_and_null_dims.2.1 _ _ remotePrefs rfl (by decide) rfl

theorem charToNat_ofNat {n : Nat} (h : n < 55296) : (Char.ofNat n).toNat = n := by
  have hv : n.isValidChar := Or.inl h
  simp [Char.ofNat, hv, Char.ofNatAux, Char.toNat, UInt32.toNat]

theorem pyLowerChar_pyUpperChar (c : Char) :
    pyLowerChar (pyUpperChar c) = pyLowerChar c := by
  unfold pyLowerChar pyUpperChar
  by_cases h : 97 ≤ c.toNat ∧ c.toNat ≤ 122
  · rw [if_pos h]
    have h1 : (Char.ofNat (c.toNat - 32)).toNat = c.toNat - 32 :=
      charToNat_ofNat (by omega)
    rw [if_pos (by omega :
        65 ≤ (Char.ofNat (c.toNat - 32)).toNat ∧ (Char.ofNat (c.toNat - 32)).toNat ≤ 90)]
    rw [if_neg (by omega : ¬(65 ≤ c.toNat ∧ c.toNat ≤ 90))]
    rw [h1]
    have h2 : c.toNat - 32 + 32 = c.toNat := by omega
    rw [h2, Char.ofNat_toNat]
  · rw [if_neg h]

theorem length_wordToHex (w : Nat) : (wordToHex w).length = 8 := by
  simp [wordToHex]

theorem length_sha256 (m : List Nat) : (sha256 m).length = 8 := rfl

theorem flatten_map_wordToHex_length (ws : List Nat) :
    ((ws.map wordToHex).flatten).length = 8 * ws.length := by
  induction ws with
  | nil => rfl
  | cons w t ih =>
    simp only [List.map_cons, List.flatten_cons, List.length_append,
      length_wordToHex, ih, List.length_cons]
    omega

theorem length_sha256Hex (m : List Nat) : (sha256Hex m).length = 64 := by
  show ((sha256 m).map wordToHex).flatten.length = 64
  rw [flatten_map_wordToHex_length, length_sha256]

/-- C1 counterexample: surrounding whitespace on the url input changes the
key, because `generate_job_external_id` strips only the ends of the whole
`f"{a}:{b}:{c}"` concatenation, so `" u "` stays distinct from `"u"`.  At
`a="s"`, `b="u"`, `c="t"` the claimed equality
`identity(a,b,c) = identity(a.upper(), " "+b+" ", c)` fails. -/
theorem generate_job_external_id_cex :
    generate_job_external_id (str "s") (str "u") (str "t") ≠
      generate_job_external_id (pyUpper (str "s"))
        (str " " ++ str "u" ++ str " ") (str "t") := by
  decide

/-- C1 (amended): the identity hash is invariant under case change of the
inputs, deterministic (equal normalized concatenations give the identical
key), and the key is a fixed-length (64 hex character) string; but
whitespace is trimmed only at the two ends of the whole concatenation, not
around each input. -/
theorem generate_job_external_id_props :
    (∀ a b c, generate_job_external_id (pyUpper a) b c =
        generate_job_external_id a b c) ∧
    (∀ a b c a2 b2 c2,
        pyStrip (pyLower (a ++ str ":" ++ b ++ str ":" ++ c)) =
          pyStrip (pyLower (a2 ++ str ":" ++ b2 ++ str ":" ++ c2)) →
        generate_job_external_id a b c = generate_job_external_id a2 b2 c2) ∧
    (∀ a b c, (generate_job_external_id a b c).length = 64) := by
  refine ⟨?_, ?_, ?_⟩
  · intro a b c
    have key : List.map pyLowerChar (pyUpper a) = List.map pyLowerChar a := by
      simp [pyUpper, List.map_map, Function.comp, pyLowerChar_pyUpperChar]
    have h2 : pyLower (pyUpper a ++ str ":" ++ b ++ str ":" ++ c) =
        pyLower (a ++ str ":" ++ b ++ str ":" ++ c) := by
      simp only [pyLower, List.map_append]
      rw [key]
    simp only [generate_job_external_id]
    rw [h2]
  · intro a b c a2 b2 c2 h
    simp only [generate_job_external_id]
    rw [h]
  · intro a b c
    simp only [generate_job_external_id]
    exact length_sha256Hex _

/-- Witness for C1 (amended): concrete case-invariance and key length. -/
theorem generate_job_external_id_props_witness :
    generate_job_external_id (str "AB") (str "u") (str "t") =
      generate_job_external_id (str "ab") (str "u") (str "t") ∧
    (generate_job_external_id (str "s") (str "u") (str "t")).length = 64 := by
  constructor
  · exact generate_job_external_id_props.2.1 (str "AB") (str "u") (str "t")
      (str "ab") (str "u") (str "t") (by decide)
  · exact generate_job_external_id_props.2.2 (str "s") (str "u") (str "t")

theorem updateExistingJob_append (db : List JobPosting) (p : JobPosting)
    (eid : List Char) (now : Nat)
    (h : db.find? (fun j => j.external_id == eid) = none)
    (hp : p.external_id = eid) :
    updateExistingJob (db ++ [p]) eid now =
      db ++ [{ p with last_seen_at := now, is_active := true }] := by
  induction db with
  | nil => simp [updateExistingJob, hp]
  | cons a t ih =>
    cases hc : (a.external_id == eid) with
    | true => simp [List.find?, hc] at h
    | false =>
      simp only [List.find?, hc] at h
      rw [List.cons_append]
      simp [updateExistingJob, hc, ih h]

/-- C2: admitting the same candidate (same source, url, title) twice yields
exactly one persisted posting: the first call persists a posting `p` whose
content fields come from the candidate and whose timestamps are the first
call's clock; the second call returns `none` and the database afterwards is
the same list with only `p`'s last-seen timestamp and active flag updated. -/
theorem save_new_job_dedup (nj nj2 : NormalizedJob) (cpid : List Char)
    (t1 id1 t2 id2 : Nat) (db0 : List JobPosting)
    (hurl : nj2.url = nj.url) (htitle : nj2.title = nj.title)
    (hfresh : db0.find? (fun j =>
        j.external_id == generate_job_external_id cpid nj.url nj.title) = none) :
    ∃ p : JobPosting,
      save_new_job nj cpid t1 id1 db0 = (some p, db0 ++ [p]) ∧
      p.title = nj.title ∧ p.location = nj.location ∧ p.job_type = nj.job_type ∧
      p.experience_level = nj.experience_level ∧ p.description = nj.description ∧
      p.requirements = nj.requirements ∧ p.url = nj.url ∧ p.raw_data = nj.raw_data ∧
      p.normalized_at = t1 ∧ p.first_seen_at = t1 ∧ p.last_seen_at = t1 ∧
      p.is_active = true ∧
      save_new_job nj2 cpid t2 id2 (db0 ++ [p]) =
        (none, db0 ++ [{ p with last_seen_at := t2, is_active := true }]) := by
  refine ⟨{ id := id1
            career_page_id := cpid
            external_id := generate_job_external_id cpid nj.url nj.title
            title := nj.title
            location := nj.location
            job_type := nj.job_type
            experience_level := nj.experience_level
            description := nj.description
            requirements := nj.requirements
            url := nj.url
            raw_data := nj.raw_data
            normalized_at := t1
            first_seen_at := t1
            last_seen_at := t1
            is_active := true },
      ?_, rfl, rfl, rfl, rfl, rfl, rfl, rfl, rfl, rfl, rfl, rfl, rfl, ?_⟩
  · simp only [save_new_job, hfresh]
  · have heq2 : generate_job_external_id cpid nj2.url nj2.title =
        generate_job_external_id cpid nj.url nj.title := by
      rw [hurl, htitle]
    simp only [save_new_job, heq2, List.find?_append, hfresh, Option.none_or]
    rw [List.find?_cons_of_pos _ (by simp)]
    rw [updateExistingJob_append db0 _ _ _ hfresh rfl]

def sampleNormalized : NormalizedJob :=
  { title := str "X"
    location := none
    job_type := none
    experience_level := none
    description := none
    requirements := none
    url := str "https://a.example/careers"
    career_page_id := str "cp-1"
    company_name := str "Acme"
    raw_data := sampleRaw }

/-- Witness for C2: the two-call scenario on an initially empty database. -/
theorem save_new_job_dedup_witness :
    ∃ p : JobPosting,
      save_new_job sampleNormalized (str "cp-1") 10 1 [] = (some p, [] ++ [p]) ∧
      p.title = sampleNormalized.title ∧
      p.location = sampleNormalized.location ∧
      p.job_type = sampleNormalized.job_type ∧
      p.experience_level = sampleNormalized.experience_level ∧
      p.description = sampleNormalized.description ∧
      p.requirements = sampleNormalized.requirements ∧
      p.url = sampleNormalized.url ∧
      p.raw_data = sampleNormalized.raw_data ∧
      p.normalized_at = 10 ∧ p.first_seen_at = 10 ∧ p.last_seen_at = 10 ∧
      p.is_active = true ∧
      save_new_job sampleNormalized (str "cp-1") 20 2 ([] ++ [p]) =
        (none, [] ++ [{ p with last_seen_at := 20, is_active := true }]) :=
  save_new_job_dedup sampleNormalized sampleNormalized (str "cp-1")
    10 1 20 2 [] rfl rfl rfl

theorem processQueue_fst_nil (env : NotifyEnv) (q : List QueueEntry)
    (ns : List Notification) : (process_notification_queue env q ns).1 = [] := by
  induction q generalizing ns with
  | nil => rfl
  | cons e rest ih => simp only [process_notification_queue]; exact ih _

/-- C7: for an entry with channels `"email,discord"` where the mail transport
succeeds and the webhook transport fails, the drain appends exactly two
notification records — one `sent`, one `failed` carrying the transport's
error text — the failure is recorded rather than re-raised, and the queue
always ends empty regardless of per-channel outcomes. -/
theorem dispatch_two_channel_outcome :
    (∀ (env : NotifyEnv) (user : User) (job : JobPosting) (entry : QueueEntry)
        (err : List Char) (ns : List Notification),
        env.users.find? (fun u => u.id == entry.user_id) = some user →
        env.jobs.find? (fun j => j.id == entry.job_posting_id) = some job →
        entry.channels = str "email,discord" →
        env.emailSend user job = .ok () →
        optFalsy user.discord_webhook_url = false →
        env.discordSend user job = .error err →
        processQueueEntry env entry ns =
          ns ++ [⟨user.id, job.id, .email, .sent, some env.now, none⟩,
                 ⟨user.id, job.id, .discord, .failed, none, some err⟩] ∧
        process_notification_queue env [entry] ns =
          ([], ns ++ [⟨user.id, job.id, .email, .sent, some env.now, none⟩,
                      ⟨user.id, job.id, .discord, .failed, none, some err⟩])) ∧
    (∀ (env : NotifyEnv) (q : List QueueEntry) (ns : List Notification),
        (process_notification_queue env q ns).1 = []) := by
  constructor
  · intro env user job entry err ns hu hj hch he hw hd
    have hmain : processQueueEntry env entry ns =
        ns ++ [⟨user.id, job.id, .email, .sent, some env.now, none⟩,
               ⟨user.id, job.id, .discord, .failed, none, some err⟩] := by
      simp only [processQueueEntry, hu, hj, hch]
      rw [show pySplit ',' (str "email,discord") = [str "email", str "discord"]
        from rfl]
      simp only [List.foldl_cons, List.foldl_nil]
      rw [show pyStrip (str "email") = str "email" from rfl,
          show pyStrip (str "discord") = str "discord" from rfl]
      simp +decide only [dispatchChannel, send_email_notification,
        send_discord_notification, he, hw, hd, if_true, if_false]
      simp [List.append_assoc]
    refine ⟨hmain, ?_⟩
    simp only [process_notification_queue, hmain]
  · exact processQueue_fst_nil

def wUser : User :=
  ⟨7, str "m@example.com", some (str "https://hook.example"), none, none, true⟩

def wEnv : NotifyEnv :=
  ⟨[wUser], [nullLocationJob], fun _ _ => .ok (),
   fun _ _ => .error (str "boom"), 99⟩

/-- Witness for C7: a concrete one-user, one-posting environment where mail
succeeds and the webhook transport fails. -/
theorem dispatch_two_channel_outcome_witness :
    processQueueEntry wEnv ⟨5, 7, 2, str "email,discord"⟩ [] =
      [] ++ [⟨7, 2, .email, .sent, some 99, none⟩,
             ⟨7, 2, .discord, .failed, none, some (str "boom")⟩] := by
  exact (dispatch_two_channel_outcome.1 wEnv wUser nullLocationJob
    ⟨5, 7, 2, str "email,discord"⟩ (str "boom") []
    rfl rfl rfl rfl rfl rfl).1

/-- C8: a queue entry whose subscriber or posting no longer resolves is
dropped without appending any notification record, and the drain continues
with the remaining entries. -/
theorem stale_entry_skipped :
    (∀ (env : NotifyEnv) (entry : QueueEntry) (ns : List Notification),
        (env.users.find? (fun u => u.id == entry.user_id) = none ∨
         env.jobs.find? (fun j => j.id == entry.job_posting_id) = none) →
        processQueueEntry env entry ns = ns) ∧
    (∀ (env : NotifyEnv) (entry : QueueEntry) (rest : List QueueEntry)
        (ns : List Notification),
        (env.users.find? (fun u => u.id == entry.user_id) = none ∨
         env.jobs.find? (fun j => j.id == entry.job_posting_id) = none) →
        process_notification_queue env (entry :: rest) ns =
          process_notification_queue env rest ns) := by
  have base : ∀ (env : NotifyEnv) (entry : QueueEntry) (ns : List Notification),
      (env.users.find? (fun u => u.id == entry.user_id) = none ∨
       env.jobs.find? (fun j => j.id == entry.job_posting_id) = none) →
      processQueueEntry env entry ns = ns := by
    intro env entry ns h
    rcases h with h | h
    · simp only [processQueueEntry, h]
    · simp only [processQueueEntry, h]
      cases env.users.find? (fun u => u.id == entry.user_id) <;> rfl
  refine ⟨base, ?_⟩
  intro env entry rest ns h
  simp only [process_notification_queue]
  rw [base env entry ns h]

/-- Witness for C8: an entry referencing an empty user and posting table. -/
theorem stale_entry_skipped_witness :
    processQueueEntry ⟨[], [], fun _ _ => .ok (), fun _ _ => .ok (), 0⟩
        ⟨1, 1, 1, str "email"⟩ [] = [] ∧
    process_notification_queue ⟨[], [], fun _ _ => .ok (), fun _ _ => .ok (), 0⟩
        [⟨1, 1, 1, str "email"⟩] [] =
      process_notification_queue ⟨[], [], fun _ _ => .ok (), fun _ _ => .ok (), 0⟩
        [] [] := by
  constructor
  · exact stale_entry_skipped.1 _ _ _ (Or.inl rfl)
  · exact stale_entry_skipped.2 _ _ _ _ (Or.inl rfl)

/-- C10: a channel name other than exactly "email", "discord" or "dashboard"
(after trimming) falls through the `if/elif` chain with no record appended
and no transport consulted; the entry is still deleted, as the drained queue
always ends empty. -/
theorem unknown_channel_ignored :
    (∀ (env : NotifyEnv) (user : User) (job : JobPosting) (ch : List Char)
        (ns : List Notification),
        ch ≠ str "email" → ch ≠ str "discord" → ch ≠ str "dashboard" →
        dispatchChannel env user job ch ns = ns) ∧
    (∀ (env : NotifyEnv) (user : User) (job : JobPosting) (entry : QueueEntry)
        (ns : List Notification),
        env.users.find? (fun u => u.id == entry.user_id) = some user →
        env.jobs.find? (fun j => j.id == entry.job_posting_id) = some job →
        entry.channels = str "email,sms" →
        env.emailSend user job = .ok () →
        processQueueEntry env entry ns =
          ns ++ [⟨user.id, job.id, .email, .sent, some env.now, none⟩]) ∧
    (∀ (env : NotifyEnv) (q : List QueueEntry) (ns : List Notification),
        (process_notification_queue env q ns).1 = []) := by
  refine ⟨?_, ?_, processQueue_fst_nil⟩
  · intro env user job ch ns h1 h2 h3
    simp [dispatchChannel, h1, h2, h3]
  · intro env user job entry ns hu hj hch he
    simp only [processQueueEntry, hu, hj, hch]
    rw [show pySplit ',' (str "email,sms") = [str "email", str "sms"] from rfl]
    simp only [List.foldl_cons, List.foldl_nil]
    rw [show pyStrip (str "email") = str "email" from rfl,
        show pyStrip (str "sms") = str "sms" from rfl]
    simp +decide only [dispatchChannel, send_email_notification, he,
      if_true, if_false]

/-- Witness for C10: the unknown channel "sms" is ignored both alone and
inside an entry's channel list. -/
theorem unknown_channel_ignored_witness :
    dispatchChannel wEnv wUser nullLocationJob (str "sms") [] = [] ∧
    processQueueEntry wEnv ⟨6, 7, 2, str "email,sms"⟩ [] =
      [] ++ [⟨7, 2, .email, .sent, some 99, none⟩] := by
  constructor
  · exact unknown_channel_ignored.1 wEnv wUser nullLocationJob (str "sms") []
      (by decide) (by decide) (by decide)
  · exact unknown_channel_ignored.2.1 wEnv wUser nullLocationJob
      ⟨6, 7, 2, str "email,sms"⟩ [] rfl rfl rfl rfl

/-! ### Extractor theorems (C5, C6, C9) -/

def isJArr : JValue → Bool
  | .jarr _ => true
  | _ => false

def isJStr : JValue → Bool
  | .jstr _ => true
  | _ => false

/-- An array element that the loop skips via `continue`: an object whose
`title` value is falsy (missing, null, or empty). -/
def skippedElem : JValue → Bool
  | .jobj fields => !(jtruthy (jgetD fields (str "title") .jnull))
  | _ => false

theorem mem_of_mem_pyStrip {c : Char} {s : List Char} (h : c ∈ pyStrip s) :
    c ∈ s := by
  simp only [pyStrip, List.mem_reverse] at h
  have h1 : c ∈ (s.dropWhile isPySpace).reverse :=
    (List.dropWhile_sublist _).mem h
  rw [List.mem_reverse] at h1
  exact (List.dropWhile_sublist _).mem h1

theorem processJob_ok_raw (raw : RawJob) (j : JValue) (nj : NormalizedJob)
    (h : processJob raw j = .ok (some nj)) : nj.raw_data = raw := by
  cases j with
  | jobj fields =>
    simp only [processJob] at h
    repeat' split at h
    all_goals (try (cases h))
    all_goals (try rfl)
  | jnull => simp [processJob] at h
  | jbool b => simp [processJob] at h
  | jnum n => simp [processJob] at h
  | jstr s => simp [processJob] at h
  | jarr vs => simp [processJob] at h

theorem processJob_ok_url (raw : RawJob) (fields : List (List Char × JValue))
    (nj : NormalizedJob) (u : List Char)
    (h : processJob raw (.jobj fields) = .ok (some nj))
    (hu : pyStripVal (jgetD fields (str "url") (.jstr [])) = .ok u) :
    nj.url = if u.isEmpty then raw.url else u := by
  simp only [processJob] at h
  repeat' split at h
  all_goals (try (cases h))
  all_goals simp_all

theorem processJob_skipped (raw : RawJob) (j : JValue)
    (h : skippedElem j = true) : processJob raw j = .ok none := by
  cases j with
  | jobj fields =>
    simp only [skippedElem, Bool.not_eq_true'] at h
    simp [processJob, h]
  | jnull => simp [skippedElem] at h
  | jbool b => simp [skippedElem] at h
  | jnum n => simp [skippedElem] at h
  | jstr s => simp [skippedElem] at h
  | jarr vs => simp [skippedElem] at h

theorem processJobs_mem_raw (raw : RawJob) (js : List JValue)
    (njs : List NormalizedJob) (h : processJobs raw js = .ok njs) :
    ∀ nj ∈ njs, nj.raw_data = raw := by
  induction js generalizing njs with
  | nil =>
    simp only [processJobs] at h
    cases h
    simp
  | cons j rest ih =>
    simp only [processJobs] at h
    cases hpj : processJob raw j with
    | error e => rw [hpj] at h; cases h
    | ok o =>
      rw [hpj] at h
      cases o with
      | none => exact ih njs h
      | some nj0 =>
        cases hrest : processJobs raw rest with
        | error e => rw [hrest] at h; cases h
        | ok t =>
          rw [hrest] at h
          cases h
          intro nj hmem
          rcases List.mem_cons.mp hmem with rfl | hmem2
          · exact processJob_ok_raw raw j nj hpj
          · exact ih t hrest nj hmem2

theorem processJobs_filter_skipped (raw : RawJob) (js : List JValue) :
    processJobs raw (js.filter (fun j => !skippedElem j)) = processJobs raw js := by
  induction js with
  | nil => rfl
  | cons j rest ih =>
    cases hs : skippedElem j with
    | true =>
      rw [List.filter_cons]
      simp only [hs, Bool.not_true, Bool.false_eq_true, if_false]
      rw [ih]
      have hskip := processJob_skipped raw j hs
      simp [processJobs, hskip]
    | false =>
      rw [List.filter_cons]
      simp only [hs, Bool.not_false, if_true]
      simp only [processJobs, ih]

/-- C5: extraction never escapes with an exception and degrades to the empty
sequence: an erroring model call yields `[]`; a response with no bracket
pair yields `[]`; an unparseable span yields `[]`; a parsed non-array yields
`[]`; the result depends only on the first-`[`-to-last-`]` span of the
stripped response; and elements with a falsy (missing or empty) title are
dropped without affecting the remaining elements. -/
theorem extractor_tolerant :
    (∀ (raw : RawJob) (e : Unit), normalize_job_data raw (.error e) = []) ∧
    (∀ (raw : RawJob) (out : List Char), ('[' ∉ out ∨ ']' ∉ out) →
        parse_llm_response out raw = []) ∧
    (∀ (raw : RawJob) (out sp : List Char),
        bracketSpan (pyStrip out) = some sp → jsonParse sp = none →
        parse_llm_response out raw = []) ∧
    (∀ (raw : RawJob) (out sp : List Char) (v : JValue),
        bracketSpan (pyStrip out) = some sp → jsonParse sp = some v →
        isJArr v = false → parse_llm_response out raw = []) ∧
    (∀ (raw : RawJob) (out1 out2 : List Char),
        bracketSpan (pyStrip out1) = bracketSpan (pyStrip out2) →
        parse_llm_response out1 raw = parse_llm_response out2 raw) ∧
    (∀ (raw : RawJob) (js : List JValue),
        processJobs raw (js.filter (fun j => !skippedElem j)) =
          processJobs raw js) := by
  refine ⟨?_, ?_, ?_, ?_, ?_, processJobs_filter_skipped⟩
  · intro raw e
    simp only [normalize_job_data]
    split <;> rfl
  · intro raw out h
    have hnone : bracketSpan (pyStrip out) = none := by
      rw [bracketSpan, if_neg]
      rintro ⟨h1, h2⟩
      rcases h with h | h
      · exact h (mem_of_mem_pyStrip h1)
      · exact h (mem_of_mem_pyStrip h2)
    simp [parse_llm_response, hnone]
  · intro raw out sp hb hj
    simp [parse_llm_response, hb, hj]
  · intro raw out sp v hb hj hv
    simp only [parse_llm_response, hb, hj]
    cases v <;> simp_all [isJArr]
  · intro raw out1 out2 h
    simp only [parse_llm_response, h]

/-- Witness for C5: no-bracket and malformed-span responses yield the empty
sequence, as does an erroring model call. -/
theorem extractor_tolerant_witness :
    normalize_job_data sampleRaw (.error ()) = [] ∧
    parse_llm_response (str "no jobs") sampleRaw = [] ∧
    parse_llm_response (str "[oops]") sampleRaw = [] := by
  refine ⟨extractor_tolerant.1 sampleRaw (), ?_, ?_⟩
  · exact extractor_tolerant.2.1 sampleRaw (str "no jobs") (Or.inl (by decide))
  · exact extractor_tolerant.2.2.1 sampleRaw (str "[oops]") (str "[oops]") rfl rfl

/-- C6: the commentary-wrapped response with one titled element yields
exactly one candidate with the optional fields null, the candidate URL
falling back to the source's URL exactly when the model-supplied URL strips
to empty, and the full raw unit retained verbatim on every candidate. -/
theorem extractor_enrichment :
    (∀ raw : RawJob,
        parse_llm_response (str "Here you go: [\x7b\"title\":\"X\"\x7d] thanks") raw =
          [{ title := str "X", location := none, job_type := none,
             experience_level := none, description := none, requirements := none,
             url := raw.url, career_page_id := raw.career_page_id,
             company_name := raw.company_name, raw_data := raw }]) ∧
    (∀ (raw : RawJob) (out : List Char) (nj : NormalizedJob),
        nj ∈ parse_llm_response out raw → nj.raw_data = raw) ∧
    (∀ (raw : RawJob) (fields : List (List Char × JValue)) (nj : NormalizedJob)
        (u : List Char),
        processJob raw (.jobj fields) = .ok (some nj) →
        pyStripVal (jgetD fields (str "url") (.jstr [])) = .ok u →
        nj.url = if u.isEmpty then raw.url else u) := by
  refine ⟨fun raw => rfl, ?_, processJob_ok_url⟩
  intro raw out nj hmem
  simp only [parse_llm_response] at hmem
  cases hb : bracketSpan (pyStrip out) with
  | none => simp only [hb] at hmem; simp at hmem
  | some sp =>
    simp only [hb] at hmem
    cases hj : jsonParse sp with
    | none => simp only [hj] at hmem; simp at hmem
    | some v =>
      simp only [hj] at hmem
      cases v with
      | jarr js =>
        cases hp : processJobs raw js with
        | error e => simp only [hp] at hmem; simp at hmem
        | ok njs =>
          simp only [hp] at hmem
          exact processJobs_mem_raw raw js njs hp nj hmem
      | jnull => simp at hmem
      | jbool b => simp at hmem
      | jnum n => simp at hmem
      | jstr s => simp at hmem
      | jobj fs => simp at hmem

/-- Witness for C6: the raw unit is retained on the candidate extracted from
the concrete commentary-wrapped response. -/
theorem extractor_enrichment_witness :
    ({ title := str "X", location := none, job_type := none,
       experience_level := none, description := none, requirements := none,
       url := sampleRaw.url, career_page_id := sampleRaw.career_page_id,
       company_name := sampleRaw.company_name,
       raw_data := sampleRaw } : NormalizedJob).raw_data = sampleRaw := by
  exact extractor_enrichment.2.1 sampleRaw
    (str "Here you go: [\x7b\"title\":\"X\"\x7d] thanks") _ (by decide)

theorem processJob_error_of_bad (raw : RawJob)
    (fields : List (List Char × JValue)) (t k : List Char) (v : JValue)
    (ht : dictGet? fields (str "title") = some (.jstr t)) (htt : t ≠ [])
    (hk : k ∈ [str "location", str "job_type", str "experience_level",
               str "description", str "requirements", str "url"])
    (hv : dictGet? fields k = some v) (hvs : isJStr v = false) :
    processJob raw (.jobj fields) = .error () := by
  have htr : jtruthy (jgetD fields (str "title") .jnull) = true := by
    simp [jgetD, ht, jtruthy]
    exact htt
  have htok : pyStripVal (jgetD fields (str "title") (.jstr [])) =
      .ok (pyStrip t) := by
    simp [jgetD, ht, pyStripVal]
  have hbad : pyStripVal v = .error () := by
    cases v <;> simp_all [pyStripVal, isJStr]
  simp only [List.mem_cons, List.not_mem_nil, or_false] at hk
  rcases hk with rfl | rfl | rfl | rfl | rfl | rfl
  · have hx : jgetD fields (str "location") (.jstr []) = v := by simp [jgetD, hv]
    simp [processJob, htr, htok, hx, hbad]
  · have hx : jgetD fields (str "job_type") (.jstr []) = v := by simp [jgetD, hv]
    simp only [processJob, htr, if_true, htok, hx, hbad]
    cases pyStripVal (jgetD fields (str "location") (.jstr [])) <;> rfl
  · have hx : jgetD fields (str "experience_level") (.jstr []) = v := by
      simp [jgetD, hv]
    simp only [processJob, htr, if_true, htok, hx, hbad]
    cases pyStripVal (jgetD fields (str "location") (.jstr [])) with
    | error e => rfl
    | ok a => cases pyStripVal (jgetD fields (str "job_type") (.jstr [])) <;> rfl
  · have hx : jgetD fields (str "description") (.jstr []) = v := by
      simp [jgetD, hv]
    simp only [processJob, htr, if_true, htok, hx, hbad]
    cases pyStripVal (jgetD fields (str "location") (.jstr [])) with
    | error e => rfl
    | ok a =>
      cases pyStripVal (jgetD fields (str "job_type") (.jstr [])) with
      | error e => rfl
      | ok b =>
        cases pyStripVal (jgetD fields (str "experience_level") (.jstr [])) <;> rfl
  · have hx : jgetD fields (str "requirements") (.jstr []) = v := by
      simp [jgetD, hv]
    simp only [processJob, htr, if_true, htok, hx, hbad]
    cases pyStripVal (jgetD fields (str "location") (.jstr [])) with
    | error e => rfl
    | ok a =>
      cases pyStripVal (jgetD fields (str "job_type") (.jstr [])) with
      | error e => rfl
      | ok b =>
        cases pyStripVal (jgetD fields (str "experience_level") (.jstr [])) with
        | error e => rfl
        | ok c =>
          cases pyStripVal (jgetD fields (str "description") (.jstr [])) <;> rfl
  · have hx : jgetD fields (str "url") (.jstr []) = v := by simp [jgetD, hv]
    simp only [processJob, htr, if_true, htok, hx, hbad]
    cases pyStripVal (jgetD fields (str "location") (.jstr [])) with
    | error e => rfl
    | ok a =>
      cases pyStripVal (jgetD fields (str "job_type") (.jstr [])) with
      | error e => rfl
      | ok b =>
        cases pyStripVal (jgetD fields (str "experience_level") (.jstr [])) with
        | error e => rfl
        | ok c =>
          cases pyStripVal (jgetD fields (str "description") (.jstr [])) with
          | error e => rfl
          | ok d =>
            cases pyStripVal (jgetD fields (str "requirements") (.jstr [])) <;> rfl

/-- C9: a parsed element with a truthy string title but an explicit null (or
any non-string) value under one of the six optional keys makes the
string-normalization step raise, and the catch-all handler then discards the
whole unit — including its well-formed elements. -/
theorem null_optional_field_poisons_unit :
    (∀ (raw : RawJob) (js : List JValue) (fields : List (List Char × JValue))
        (t k : List Char) (v : JValue),
        JValue.jobj fields ∈ js →
        dictGet? fields (str "title") = some (.jstr t) → t ≠ [] →
        k ∈ [str "location", str "job_type", str "experience_level",
             str "description", str "requirements", str "url"] →
        dictGet? fields k = some v → isJStr v = false →
        processJobs raw js = .error ()) ∧
    (∀ raw : RawJob,
        parse_llm_response
          (str "[\x7b\"title\":\"A\"\x7d, \x7b\"title\":\"B\", \"location\": null\x7d]")
          raw = []) ∧
    (∀ raw : RawJob,
        parse_llm_response (str "[\x7b\"title\":\"A\"\x7d]") raw =
          [{ title := str "A", location := none, job_type := none,
             experience_level := none, description := none, requirements := none,
             url := raw.url, career_page_id := raw.career_page_id,
             company_name := raw.company_name, raw_data := raw }]) := by
  refine ⟨?_, fun raw => rfl, fun raw => rfl⟩
  intro raw js fields t k v
  induction js with
  | nil => intro hmem; cases hmem
  | cons a rest ih =>
    intro hmem ht htt hk hv hvs
    rcases List.mem_cons.mp hmem with ha | h2
    · rw [← ha]
      have herr := processJob_error_of_bad raw fields t k v ht htt hk hv hvs
      simp [processJobs, herr]
    · have htail := ih h2 ht htt hk hv hvs
      cases hpa : processJob raw a with
      | error e => simp [processJobs, hpa]
      | ok o =>
        cases o with
        | none => simp [processJobs, hpa, htail]
        | some nj => simp [processJobs, hpa, htail]

/-- Witness for C9: a unit whose second element has a null location is fully
discarded by the element loop. -/
theorem null_optional_field_poisons_unit_witness :
    processJobs sampleRaw
      [JValue.jobj [(str "title", .jstr (str "A"))],
       JValue.jobj [(str "title", .jstr (str "B")), (str "location", .jnull)]] =
      .error () := by
  exact null_optional_field_poisons_unit.1 sampleRaw
    [JValue.jobj [(str "title", .jstr (str "A"))],
     JValue.jobj [(str "title", .jstr (str "B")), (str "location", .jnull)]]
    [(str "title", .jstr (str "B")), (str "location", .jnull)]
    (str "B") (str "location") .jnull
    (by simp) rfl (by decide) (by simp) rfl rfl

/-- Witness for C4: the substring fallback accepts the
"San Francisco" / "San Francisco, CA" pair. -/
theorem location_matches_correct_witness :
    location_matches (str "San Francisco, CA") (str "San Francisco") = true := by
  exact (location_matches_correct (str "San Francisco, CA")
    (str "San Francisco")).mpr (Or.inr (Or.inr (Or.inl (by decide))))
